import Mathlib

/-!
# Verification of the connect-online pairing/relay gateway

Shallow embedding of `src/apps/backend/src/app.gateway.ts` (class `AppGateway`).

The gateway keeps two mutable structures:
* `waitingQueue : string[]` — socket ids waiting for a match,
* `socketToRoom : Map<string, string>` — socket id to room id.

The transport collaborator (socket.io) additionally provides room membership
(`client.join`, `socketsLeave`, `server.to(room).emit`, `client.to(room).emit`)
and the set of live sockets (`server.sockets.sockets`); we model those as part
of the state (`roomMembers`, `live`).  Each socket is implicitly addressable
by `server.to(itsOwnId)` while connected, which we model as a direct emit
guarded by liveness.

Every handler is embedded as a pure function `GState → ... → GState × List Emit`
returning the next state and the list of outbound (recipient, event) pairs, in
emission order.
-/

namespace ConnectOnline

/-- Socket (connection) identifiers, opaque strings in the source. -/
abbrev Id := String

/-- Outbound events emitted by the gateway (core → client). -/
inductive OutMsg where
  | waitingForMatch : OutMsg
  | matchFound (roomId : String) : OutMsg
  | isInitiator (flag : Bool) : OutMsg
  | signalOut (sender : Id) (payload : String) : OutMsg
  | receiveMessage (sender : String) (text : String) : OutMsg
  | partnerDisconnected : OutMsg
deriving DecidableEq, Repr

/-- One outbound delivery: (recipient socket id, event). -/
abbrev Emit := Id × OutMsg

/-- The gateway state: the two structures of `AppGateway` plus the transport
collaborator's room membership and live-socket set. `socketToRoom` is the
JS `Map` as an association list in insertion order; `roomMembers` lists
(room, member) pairs in join order; `live` lists connected socket ids. -/
structure GState where
  waitingQueue : List Id
  socketToRoom : List (Id × String)
  roomMembers : List (String × Id)
  live : List Id
deriving DecidableEq, Repr

/-- Embeds `Map.get`: value of the first (only) entry with the given key. -/
def mapGet : List (Id × String) → Id → Option String
  | [], _ => none
  | (k, v) :: rest, c => if k = c then some v else mapGet rest c

/-- Embeds `Map.set`: replace in place if the key is present, else append. -/
def mapSet : List (Id × String) → Id → String → List (Id × String)
  | [], k, v => [(k, v)]
  | (a, b) :: tl, k, v =>
    if a = k then (k, v) :: tl else (a, b) :: mapSet tl k v

/-- Embeds `Map.delete`: remove the entry with the given key. -/
def mapDelete : List (Id × String) → Id → List (Id × String)
  | [], _ => []
  | (a, b) :: tl, k =>
    if a = k then mapDelete tl k else (a, b) :: mapDelete tl k

/-- Embeds `socket.join(room)`: idempotent room join. -/
def joinRoom (ms : List (String × Id)) (r : String) (c : Id) : List (String × Id) :=
  if ms.contains (r, c) then ms else ms ++ [(r, c)]

/-- Members of a room, in join order. -/
def membersOf (ms : List (String × Id)) (r : String) : List Id :=
  (ms.filter (fun p => p.1 == r)).map (fun p => p.2)

/-- Embeds `server.to(room).emit(msg)`: deliver to every member of the room. -/
def emitToRoom (ms : List (String × Id)) (r : String) (msg : OutMsg) : List Emit :=
  (membersOf ms r).map (fun x => (x, msg))

/-- Embeds `client.to(room).emit(msg)`: deliver to every member of the room except
the sender. -/
def emitToRoomExcept (ms : List (String × Id)) (r : String) (sender : Id)
    (msg : OutMsg) : List Emit :=
  ((membersOf ms r).filter (fun x => x != sender)).map (fun x => (x, msg))

/-- The room id derived on a match:
`const roomId = ` `room_${partnerId}_${client.id}`. -/
def roomName (partnerId clientId : Id) : String :=
  "room_" ++ partnerId ++ "_" ++ clientId

/-- Embeds `handleUserLeave(socketId)`:
removes the socket from the waiting queue; if it is in a room, broadcasts
`partner_disconnected` to the room, forces everyone out of the room
(`socketsLeave`), and deletes only the leaving socket's `socketToRoom`
entry (the partner's entry is not removed). -/
def handleUserLeave (s : GState) (socketId : Id) : GState × List Emit :=
  let s1 : GState :=
    { s with waitingQueue := s.waitingQueue.filter (fun i => i != socketId) }
  match mapGet s1.socketToRoom socketId with
  | none => (s1, [])
  | some roomId =>
    let ems := emitToRoom s1.roomMembers roomId .partnerDisconnected
    let s2 : GState :=
      { s1 with roomMembers := s1.roomMembers.filter (fun p => p.1 != roomId) }
    let s3 : GState :=
      { s2 with socketToRoom := mapDelete s2.socketToRoom socketId }
    (s3, ems)

/-- Embeds `handleJoinQueue(client)`: if the client is already in a room or in the
queue, ignore.  Otherwise, if the queue is non-empty, shift its head as the
partner (guarding against the partner being the client itself), derive the
room id, store both mappings, join both sockets to the room, notify
`match_found` to the room and the `is_initiator` roles; if the queue is
empty, append the client and emit `waiting_for_match`.  The `if (partnerId)`
truthiness test of the source skips the partner block when the shifted id is
the empty string. -/
def handleJoinQueue (s : GState) (clientId : Id) : GState × List Emit :=
  if (mapGet s.socketToRoom clientId).isSome || s.waitingQueue.contains clientId then
    (s, [])
  else
    match s.waitingQueue with
    | [] =>
      ({ s with waitingQueue := s.waitingQueue ++ [clientId] },
        [(clientId, .waitingForMatch)])
    | partnerId :: rest =>
      let s1 : GState := { s with waitingQueue := rest }
      if partnerId = clientId then
        ({ s1 with waitingQueue := s1.waitingQueue ++ [clientId] }, [])
      else
        let roomId := roomName partnerId clientId
        let s2 : GState :=
          { s1 with socketToRoom := mapSet s1.socketToRoom clientId roomId }
        if partnerId = "" then
          (s2, [])
        else
          let s3 : GState :=
            { s2 with socketToRoom := mapSet s2.socketToRoom partnerId roomId }
          let s4 : GState :=
            { s3 with roomMembers := joinRoom s3.roomMembers roomId clientId }
          let s5 : GState :=
            if s4.live.contains partnerId then
              { s4 with roomMembers := joinRoom s4.roomMembers roomId partnerId }
            else s4
          let ems :=
            emitToRoom s5.roomMembers roomId (.matchFound roomId)
              ++ [(clientId, .isInitiator true)]
              ++ (if s5.live.contains partnerId then
                    [(partnerId, .isInitiator false)]
                  else [])
          (s5, ems)

/-- Embeds `handleLeaveRoom(client)`, which delegates to `handleUserLeave(client.id)`. -/
def handleLeaveRoom (s : GState) (clientId : Id) : GState × List Emit :=
  handleUserLeave s clientId

/-- Embeds `handleSignal(client, payload)`: look up the sender's room; if none,
do nothing; otherwise forward `{sender, signal}` to the room except the
sender.  The payload is opaque cargo, modelled as a string. -/
def handleSignal (s : GState) (clientId : Id) (payload : String) :
    GState × List Emit :=
  match mapGet s.socketToRoom clientId with
  | none => (s, [])
  | some roomId =>
    (s, emitToRoomExcept s.roomMembers roomId clientId (.signalOut clientId payload))

/-- Embeds `handleMessage(client, payload)`: look up the sender's room; if none,
do nothing; otherwise forward `receive_message {sender: "partner", text}`
to the room except the sender. -/
def handleMessage (s : GState) (clientId : Id) (text : String) :
    GState × List Emit :=
  match mapGet s.socketToRoom clientId with
  | none => (s, [])
  | some roomId =>
    (s, emitToRoomExcept s.roomMembers roomId clientId
          (.receiveMessage "partner" text))

/-- Embeds `handleConnection(client)`: the transport registers a new live socket. -/
def handleConnection (s : GState) (clientId : Id) : GState :=
  { s with live := s.live ++ [clientId] }

/-- Embeds `handleDisconnect(client)`: by socket.io semantics the socket has already
left all rooms and the live set when the handler runs; then
`handleUserLeave(client.id)`. -/
def handleDisconnect (s : GState) (clientId : Id) : GState × List Emit :=
  let s1 : GState :=
    { s with
      roomMembers := s.roomMembers.filter (fun p => p.2 != clientId)
      live := s.live.filter (fun i => i != clientId) }
  handleUserLeave s1 clientId

/-- The inbound events of the gateway. -/
inductive Ev where
  | connect (c : Id) : Ev
  | disconnect (c : Id) : Ev
  | joinQueue (c : Id) : Ev
  | leaveRoom (c : Id) : Ev
  | signal (c : Id) (payload : String) : Ev
  | sendMessage (c : Id) (text : String) : Ev

/-- Dispatch one inbound event (run-to-completion). -/
def step (s : GState) : Ev → GState × List Emit
  | .connect c => (handleConnection s c, [])
  | .disconnect c => handleDisconnect s c
  | .joinQueue c => handleJoinQueue s c
  | .leaveRoom c => handleLeaveRoom s c
  | .signal c p => handleSignal s c p
  | .sendMessage c t => handleMessage s c t

/-- The empty initial state of a freshly constructed gateway. -/
def init : GState := ⟨[], [], [], []⟩

/-- Run a sequence of events from a state, discarding emissions. -/
def runFrom (s : GState) : List Ev → GState
  | [] => s
  | e :: evs => runFrom (step s e).1 evs

/-- Run a sequence of events from the initial state. -/
def run (evs : List Ev) : GState := runFrom init evs

/-- Run a sequence of events from a state, accumulating all emissions
in order. -/
def runAccFrom (s : GState) (acc : List Emit) : List Ev → GState × List Emit
  | [] => (s, acc)
  | e :: evs =>
    let r := step s e
    runAccFrom r.1 (acc ++ r.2) evs

/-- Run from the initial state accumulating all emissions. -/
def runAcc (evs : List Ev) : GState × List Emit := runAccFrom init [] evs

/-- A connection is `Queued` when it is in the waiting queue. -/
def Queued (s : GState) (c : Id) : Prop := c ∈ s.waitingQueue

/-- A connection is `Paired` when the session directory maps it. -/
def Paired (s : GState) (c : Id) : Prop := (mapGet s.socketToRoom c).isSome

/-- A connection is `Idle` when it is in neither structure. -/
def Idle (s : GState) (c : Id) : Prop :=
  c ∉ s.waitingQueue ∧ mapGet s.socketToRoom c = none

/-- The inductive invariant: the waiting queue has no duplicates and no
queued connection has a session-directory entry. -/
def Inv (s : GState) : Prop :=
  s.waitingQueue.Nodup ∧ ∀ c ∈ s.waitingQueue, mapGet s.socketToRoom c = none

/-! ## Lemmas about the association-list `Map` operations -/

theorem mapGet_mapSet_self (m : List (Id × String)) (k : Id) (v : String) :
    mapGet (mapSet m k v) k = some v := by
  induction m with
  | nil => simp [mapSet, mapGet]
  | cons hd tl ih =>
    obtain ⟨a, b⟩ := hd
    by_cases ha : a = k <;> simp [mapSet, mapGet, ha, ih]

theorem mapGet_mapSet_ne (m : List (Id × String)) (k k' : Id) (v : String)
    (h : k' ≠ k) : mapGet (mapSet m k v) k' = mapGet m k' := by
  induction m with
  | nil => simp [mapSet, mapGet, Ne.symm h]
  | cons hd tl ih =>
    obtain ⟨a, b⟩ := hd
    by_cases ha : a = k
    · subst ha
      simp [mapSet, mapGet, Ne.symm h]
    · by_cases ha' : a = k' <;> simp [mapSet, mapGet, ha, ha', ih, h]

theorem mapGet_mapDelete_self (m : List (Id × String)) (k : Id) :
    mapGet (mapDelete m k) k = none := by
  induction m with
  | nil => rfl
  | cons hd tl ih =>
    obtain ⟨a, b⟩ := hd
    by_cases ha : a = k <;> simp [mapDelete, mapGet, ha, ih]

theorem mapGet_mapDelete_ne (m : List (Id × String)) (k k' : Id) (h : k' ≠ k) :
    mapGet (mapDelete m k) k' = mapGet m k' := by
  induction m with
  | nil => rfl
  | cons hd tl ih =>
    obtain ⟨a, b⟩ := hd
    by_cases ha : a = k
    · subst ha
      simp [mapDelete, mapGet, Ne.symm h, ih]
    · by_cases ha' : a = k' <;> simp [mapDelete, mapGet, ha, ha', ih, h]

theorem mapGet_mapDelete_none (m : List (Id × String)) (k k' : Id)
    (h : mapGet m k' = none) : mapGet (mapDelete m k) k' = none := by
  by_cases hk : k' = k
  · subst hk; exact mapGet_mapDelete_self m k'
  · rw [mapGet_mapDelete_ne m k k' hk]; exact h

/-! ## The central invariant: queue uniqueness and queue/directory disjointness -/

theorem inv_init : Inv init := by
  constructor
  · exact List.nodup_nil
  · intro c hc; cases hc

theorem inv_handleUserLeave (s : GState) (c : Id) (h : Inv s) :
    Inv (handleUserLeave s c).1 := by
  obtain ⟨hnd, hdisj⟩ := h
  have hfil : ∀ x, x ∈ s.waitingQueue.filter (fun i => i != c) →
      x ∈ s.waitingQueue := fun x hx => (List.mem_filter.mp hx).1
  cases hm : mapGet s.socketToRoom c with
  | none =>
    simp only [handleUserLeave, hm]
    exact ⟨hnd.filter _, fun x hx => hdisj x (hfil x hx)⟩
  | some r =>
    simp only [handleUserLeave, hm]
    exact ⟨hnd.filter _, fun x hx =>
      mapGet_mapDelete_none _ _ _ (hdisj x (hfil x hx))⟩

theorem inv_handleJoinQueue (s : GState) (c : Id) (h : Inv s) :
    Inv (handleJoinQueue s c).1 := by
  obtain ⟨hnd, hdisj⟩ := h
  by_cases hg :
      ((mapGet s.socketToRoom c).isSome || s.waitingQueue.contains c) = true
  · simp only [handleJoinQueue, if_pos hg]
    exact ⟨hnd, hdisj⟩
  · have hg2 :
        ((mapGet s.socketToRoom c).isSome || s.waitingQueue.contains c) = false :=
      Bool.not_eq_true _ |>.mp hg
    have hg' : mapGet s.socketToRoom c = none ∧ c ∉ s.waitingQueue := by
      simp at hg
      exact hg
    obtain ⟨hcmap, hcq⟩ := hg'
    rcases hq : s.waitingQueue with _ | ⟨p, rest⟩
    · rw [hq] at hg2
      simp only [handleJoinQueue, hq, hg2, Bool.false_eq_true, if_false,
        List.nil_append]
      refine ⟨List.nodup_singleton c, fun x hx => ?_⟩
      simp only [List.mem_singleton] at hx
      subst hx
      exact hcmap
    · rw [hq] at hcq hnd hdisj hg2
      have hpc : ¬(p = c) := fun hx => hcq (hx ▸ List.mem_cons_self p rest)
      have hrest : ∀ x ∈ rest, x ≠ c := fun x hx hxc =>
        hcq (hxc ▸ List.mem_cons_of_mem p hx)
      have hdrest : ∀ x ∈ rest, mapGet s.socketToRoom x = none := fun x hx =>
        hdisj x (List.mem_cons_of_mem p hx)
      have hndrest : rest.Nodup := hnd.of_cons
      have hprest : p ∉ rest := (List.nodup_cons.mp hnd).1
      simp only [handleJoinQueue, hq, hg2, Bool.false_eq_true, if_false,
        if_neg hpc]
      by_cases hp : p = ""
      · rw [if_pos hp]
        refine ⟨hndrest, fun x hx => ?_⟩
        rw [mapGet_mapSet_ne _ _ _ _ (hrest x hx)]
        exact hdrest x hx
      · rw [if_neg hp]
        have hinv2 : ∀ x ∈ rest,
            mapGet (mapSet (mapSet s.socketToRoom c (roomName p c)) p
              (roomName p c)) x = none := by
          intro x hx
          have hxp : x ≠ p := fun hxp => hprest (hxp ▸ hx)
          rw [mapGet_mapSet_ne _ _ _ _ hxp,
            mapGet_mapSet_ne _ _ _ _ (hrest x hx)]
          exact hdrest x hx
        split
        · exact ⟨hndrest, hinv2⟩
        · exact ⟨hndrest, hinv2⟩

theorem inv_step (s : GState) (e : Ev) (h : Inv s) : Inv (step s e).1 := by
  cases e with
  | connect c => exact ⟨h.1, h.2⟩
  | disconnect c => exact inv_handleUserLeave _ c ⟨h.1, h.2⟩
  | joinQueue c => exact inv_handleJoinQueue s c h
  | leaveRoom c => exact inv_handleUserLeave s c h
  | signal c p =>
    cases hm : mapGet s.socketToRoom c with
    | none => simpa [step, handleSignal, hm] using h
    | some r => simpa [step, handleSignal, hm] using h
  | sendMessage c t =>
    cases hm : mapGet s.socketToRoom c with
    | none => simpa [step, handleMessage, hm] using h
    | some r => simpa [step, handleMessage, hm] using h

theorem inv_runFrom (s : GState) (evs : List Ev) (h : Inv s) :
    Inv (runFrom s evs) := by
  induction evs generalizing s with
  | nil => exact h
  | cons e evs ih => exact ih _ (inv_step s e h)

theorem inv_run (evs : List Ev) : Inv (run evs) :=
  inv_runFrom init evs inv_init

/-! ## Helper lemmas about runs and relays -/

theorem runAccFrom_fst (s : GState) (acc : List Emit) (evs : List Ev) :
    (runAccFrom s acc evs).1 = runFrom s evs := by
  induction evs generalizing s acc with
  | nil => rfl
  | cons e evs ih => simp only [runAccFrom, runFrom, ih]

theorem run_eq_runAcc_fst (evs : List Ev) : run evs = (runAcc evs).1 :=
  (runAccFrom_fst init [] evs).symm

theorem emitToRoomExcept_ne (ms : List (String × Id)) (r : String)
    (sender : Id) (msg : OutMsg) :
    ∀ e ∈ emitToRoomExcept ms r sender msg, e.1 ≠ sender := by
  intro e he
  simp only [emitToRoomExcept, List.mem_map, List.mem_filter,
    bne_iff_ne] at he
  obtain ⟨z, ⟨_, hz⟩, rfl⟩ := he
  exact hz

/-- Evaluation of the canonical pairing trace: `x` connects and queues, then
`y` connects and joins, pairing with `x` in room `roomName x y`. -/
theorem runAcc_pair_eq (x y : Id) (hxy : x ≠ y) (hx : x ≠ "") :
    runAcc [Ev.connect x, Ev.connect y, Ev.joinQueue x, Ev.joinQueue y] =
      (⟨[], [(y, roomName x y), (x, roomName x y)],
         [(roomName x y, y), (roomName x y, x)], [x, y]⟩,
       [(x, OutMsg.waitingForMatch),
        (y, OutMsg.matchFound (roomName x y)),
        (x, OutMsg.matchFound (roomName x y)),
        (y, OutMsg.isInitiator true),
        (x, OutMsg.isInitiator false)]) := by
  have hyx : y ≠ x := Ne.symm hxy
  simp [runAcc, runAccFrom, init, step, handleConnection, handleJoinQueue,
    mapGet, mapSet, joinRoom, membersOf, emitToRoom, hxy, hyx, hx]

theorem run_pair_eq (x y : Id) (hxy : x ≠ y) (hx : x ≠ "") :
    run [Ev.connect x, Ev.connect y, Ev.joinQueue x, Ev.joinQueue y] =
      ⟨[], [(y, roomName x y), (x, roomName x y)],
        [(roomName x y, y), (roomName x y, x)], [x, y]⟩ := by
  rw [run_eq_runAcc_fst, runAcc_pair_eq x y hxy hx]

/-! ## The claims -/

/-- C3 — State exclusivity invariant: in every state reachable by any event
sequence, each connection is in exactly one of Idle, Queued, Paired; in
particular no identifier is simultaneously in the waiting queue and in the
session directory. -/
theorem C3_state_exclusivity (evs : List Ev) (c : Id) :
    (Idle (run evs) c ∨ Queued (run evs) c ∨ Paired (run evs) c) ∧
    ¬(Queued (run evs) c ∧ Paired (run evs) c) ∧
    ¬(Idle (run evs) c ∧ Queued (run evs) c) ∧
    ¬(Idle (run evs) c ∧ Paired (run evs) c) := by
  obtain ⟨hnd, hdisj⟩ := inv_run evs
  refine ⟨?_, ?_, ?_, ?_⟩
  · by_cases hqm : c ∈ (run evs).waitingQueue
    · exact Or.inr (Or.inl hqm)
    · cases hm : mapGet (run evs).socketToRoom c with
      | none => exact Or.inl ⟨hqm, hm⟩
      | some r => exact Or.inr (Or.inr (by simp [Paired, hm]))
  · rintro ⟨hq, hp⟩
    rw [Paired, hdisj c hq] at hp
    simp at hp
  · rintro ⟨⟨hi, _⟩, hq⟩
    exact hi hq
  · rintro ⟨⟨_, hi⟩, hp⟩
    rw [Paired, hi] at hp
    simp at hp

/-- C4 — Queue uniqueness invariant: under every event sequence from the
empty state the waiting queue never holds a duplicate identifier, and a
`join_queue` from a connection that is already Queued or Paired leaves the
state unchanged and emits nothing. -/
theorem C4_queue_uniqueness :
    (∀ evs : List Ev, (run evs).waitingQueue.Nodup) ∧
    (∀ (s : GState) (c : Id),
      ((mapGet s.socketToRoom c).isSome = true ∨ c ∈ s.waitingQueue) →
      handleJoinQueue s c = (s, [])) := by
  constructor
  · exact fun evs => (inv_run evs).1
  · intro s c h
    have hg : ((mapGet s.socketToRoom c).isSome
        || s.waitingQueue.contains c) = true := by
      rcases h with h | h
      · rw [h, Bool.true_or]
      · have hc : s.waitingQueue.contains c = true := List.elem_iff.mpr h
        rw [hc, Bool.or_true]
    unfold handleJoinQueue
    rw [if_pos hg]

/-- Witness for C4: a concrete trace keeps the queue duplicate-freen and a
`join_queue` from the already-queued connection "b" is a no-op. -/
theorem C4_queue_uniqueness_witness :
    (run [Ev.joinQueue "a", Ev.joinQueue "a"]).waitingQueue.Nodup ∧
    handleJoinQueue ⟨["b"], [], [], []⟩ "b" = (⟨["b"], [], [], []⟩, []) :=
  ⟨C4_queue_uniqueness.1 [Ev.joinQueue "a", Ev.joinQueue "a"],
   C4_queue_uniqueness.2 ⟨["b"], [], [], []⟩ "b" (Or.inr (by decide))⟩

/-- C9 — No self-pair: whenever the `join_queue` guard has passed (the
joining connection is in neither the directory nor the queue) and the queue
is non-empty, the dequeued head can never equal the joining connection, so
the self-pair branch of `handleJoinQueue` is unreachable and the two members
of any formed session are distinct. -/
theorem C9_no_self_pair (s : GState) (c p : Id) (rest : List Id)
    (hroom : mapGet s.socketToRoom c = none)
    (hqueue : c ∉ s.waitingQueue)
    (hhead : s.waitingQueue = p :: rest) : p ≠ c := by
  intro hpc
  subst hpc
  exact hqueue (hhead ▸ List.mem_cons_self p rest)

/-- Witness for C9 at a concrete state: queue `["a"]`, joiner "b". -/
theorem C9_no_self_pair_witness : ("a" : Id) ≠ "b" :=
  C9_no_self_pair ⟨["a"], [], [], []⟩ "b" "a" [] (by decide) (by decide) rfl

/-- C1 — Cleanup is incomplete in the code: after "a" and "b" are paired and
"a" disconnects, "b" still has a session-directory entry, "b" received
exactly one `partner_disconnected`, and "b"'s subsequent `join_queue` is
ignored (no state change, no emission), so "b" is stuck rather than Idle. -/
theorem C1_cleanup_incompleteness :
    mapGet (run [Ev.connect "a", Ev.connect "b", Ev.joinQueue "a",
        Ev.joinQueue "b", Ev.disconnect "a"]).socketToRoom "b"
      = some "room_a_b" ∧
    mapGet (run [Ev.connect "a", Ev.connect "b", Ev.joinQueue "a",
        Ev.joinQueue "b", Ev.disconnect "a"]).socketToRoom "a" = none ∧
    ((runAcc [Ev.connect "a", Ev.connect "b", Ev.joinQueue "a",
        Ev.joinQueue "b", Ev.disconnect "a"]).2.filter
      (fun e => e = (("b" : Id), OutMsg.partnerDisconnected))).length = 1 ∧
    handleJoinQueue (run [Ev.connect "a", Ev.connect "b", Ev.joinQueue "a",
        Ev.joinQueue "b", Ev.disconnect "a"]) "b"
      = (run [Ev.connect "a", Ev.connect "b", Ev.joinQueue "a",
          Ev.joinQueue "b", Ev.disconnect "a"], []) := by
  decide

/-- C2 — Session symmetry fails in the code: after "a" and "b" are paired
and "a" leaves the room, the reachable state maps "b" to session
"room_a_b" while "a" is unmapped — exactly one member of the session is
mapped. -/
theorem C2_symmetry_violated :
    mapGet (run [Ev.connect "a", Ev.connect "b", Ev.joinQueue "a",
        Ev.joinQueue "b", Ev.leaveRoom "a"]).socketToRoom "b"
      = some "room_a_b" ∧
    mapGet (run [Ev.connect "a", Ev.connect "b", Ev.joinQueue "a",
        Ev.joinQueue "b", Ev.leaveRoom "a"]).socketToRoom "a" = none := by
  decide

/-- C5 — FIFO pairing: a `join_queue` from an Idle connection `c` pairs `c`
with the head of a non-empty queue, removing it, and records the session for
both; with an empty queue it appends `c` and creates no session. -/
theorem C5_fifo_pairing (s : GState) (c : Id)
    (hroom : mapGet s.socketToRoom c = none)
    (hqueue : c ∉ s.waitingQueue) :
    (s.waitingQueue = [] →
      handleJoinQueue s c =
        ({ s with waitingQueue := [c] }, [(c, OutMsg.waitingForMatch)])) ∧
    (∀ p rest, s.waitingQueue = p :: rest → p ≠ "" →
      (handleJoinQueue s c).1.waitingQueue = rest ∧
      mapGet (handleJoinQueue s c).1.socketToRoom c = some (roomName p c) ∧
      mapGet (handleJoinQueue s c).1.socketToRoom p = some (roomName p c)) := by
  have hg2 : ((mapGet s.socketToRoom c).isSome
      || s.waitingQueue.contains c) = false := by
    rw [hroom]
    cases hcc : s.waitingQueue.contains c with
    | false => rfl
    | true => exact absurd (List.elem_iff.mp hcc) hqueue
  constructor
  · intro hq
    rw [hq] at hg2
    simp only [handleJoinQueue, hq, hg2, Bool.false_eq_true, if_false,
      List.nil_append]
  · intro p rest hq hp
    rw [hq] at hg2 hqueue
    have hpc : ¬(p = c) := fun hxx => hqueue (hxx ▸ List.mem_cons_self p rest)
    have hcp : c ≠ p := fun hcp => hpc hcp.symm
    simp only [handleJoinQueue, hq, hg2, Bool.false_eq_true, if_false,
      if_neg hpc, if_neg hp]
    refine ⟨by split <;> rfl, ?_, ?_⟩
    · split <;> rw [mapGet_mapSet_ne _ _ _ _ hcp, mapGet_mapSet_self]
    · split <;> rw [mapGet_mapSet_self]

/-- Witness for C5 — the A, B, C, D scenario: with "a" and "b" waiting in
that order, joining "c" pairs with "a" and then joining "d" pairs with
"b". -/
theorem C5_fifo_pairing_witness :
    ((handleJoinQueue ⟨["a", "b"], [], [], []⟩ "c").1.waitingQueue = ["b"] ∧
      mapGet (handleJoinQueue ⟨["a", "b"], [], [], []⟩ "c").1.socketToRoom "c"
        = some (roomName "a" "c") ∧
      mapGet (handleJoinQueue ⟨["a", "b"], [], [], []⟩ "c").1.socketToRoom "a"
        = some (roomName "a" "c")) ∧
    ((handleJoinQueue (handleJoinQueue ⟨["a", "b"], [], [], []⟩ "c").1
        "d").1.waitingQueue = [] ∧
      mapGet (handleJoinQueue (handleJoinQueue ⟨["a", "b"], [], [], []⟩ "c").1
        "d").1.socketToRoom "d" = some (roomName "b" "d") ∧
      mapGet (handleJoinQueue (handleJoinQueue ⟨["a", "b"], [], [], []⟩ "c").1
        "d").1.socketToRoom "b" = some (roomName "b" "d")) :=
  ⟨(C5_fifo_pairing ⟨["a", "b"], [], [], []⟩ "c" (by decide) (by decide)).2
      "a" ["b"] rfl (by decide),
   (C5_fifo_pairing (handleJoinQueue ⟨["a", "b"], [], [], []⟩ "c").1 "d"
      (by decide) (by decide)).2 "b" [] (by decide) (by decide)⟩

/-- C6 — Basic match scenario: `x` joins the empty queue and receives
`waiting_for_match`; when `y` joins, both receive `match_found` with the
same room id, the joiner `y` receives `is_initiator = true` and the earlier
waiter `x` receives `is_initiator = false`, and nothing else is emitted. -/
theorem C6_basic_match (x y : Id) (hxy : x ≠ y) (hx : x ≠ "") :
    (runAcc [Ev.connect x, Ev.connect y, Ev.joinQueue x, Ev.joinQueue y]).2 =
      [(x, OutMsg.waitingForMatch),
       (y, OutMsg.matchFound (roomName x y)),
       (x, OutMsg.matchFound (roomName x y)),
       (y, OutMsg.isInitiator true),
       (x, OutMsg.isInitiator false)] := by
  rw [runAcc_pair_eq x y hxy hx]

/-- Witness for C6 at the concrete connections "x" and "y". -/
theorem C6_basic_match_witness :
    (runAcc [Ev.connect "x", Ev.connect "y", Ev.joinQueue "x",
        Ev.joinQueue "y"]).2 =
      [("x", OutMsg.waitingForMatch),
       ("y", OutMsg.matchFound (roomName "x" "y")),
       ("x", OutMsg.matchFound (roomName "x" "y")),
       ("y", OutMsg.isInitiator true),
       ("x", OutMsg.isInitiator false)] :=
  C6_basic_match "x" "y" (by decide) (by decide)

/-- C7 — Relay contract: a signal or message from an unpaired sender is a
silent no-op; the relay never mutates state; a relayed event is never
delivered back to its sender; and for a paired couple the payload goes
exactly to the other member — verbatim and tagged with the sender id for
signals, verbatim text tagged `sender = "partner"` for messages. -/
theorem C7_relay_contract :
    (∀ (s : GState) (c : Id) (pl txt : String),
      mapGet s.socketToRoom c = none →
        handleSignal s c pl = (s, []) ∧ handleMessage s c txt = (s, [])) ∧
    (∀ (s : GState) (c : Id) (pl txt : String),
      (handleSignal s c pl).1 = s ∧ (handleMessage s c txt).1 = s) ∧
    (∀ (s : GState) (c : Id) (pl txt : String) (e : Emit),
      (e ∈ (handleSignal s c pl).2 → e.1 ≠ c) ∧
      (e ∈ (handleMessage s c txt).2 → e.1 ≠ c)) ∧
    (∀ (x y : Id) (pl txt : String), x ≠ y → x ≠ "" →
      ∀ s, s = run [Ev.connect x, Ev.connect y, Ev.joinQueue x,
          Ev.joinQueue y] →
        handleSignal s y pl = (s, [(x, OutMsg.signalOut y pl)]) ∧
        handleMessage s y txt = (s, [(x, OutMsg.receiveMessage "partner" txt)]) ∧
        handleSignal s x pl = (s, [(y, OutMsg.signalOut x pl)]) ∧
        handleMessage s x txt = (s, [(y, OutMsg.receiveMessage "partner" txt)])) := by
  refine ⟨?_, ?_, ?_, ?_⟩
  · intro s c pl txt h
    constructor <;> simp [handleSignal, handleMessage, h]
  · intro s c pl txt
    constructor <;> cases hm : mapGet s.socketToRoom c <;>
      simp [handleSignal, handleMessage, hm]
  · intro s c pl txt e
    constructor <;> intro he
    · cases hm : mapGet s.socketToRoom c with
      | none => rw [handleSignal, hm] at he; cases he
      | some r =>
        rw [handleSignal, hm] at he
        exact emitToRoomExcept_ne _ _ _ _ e he
    · cases hm : mapGet s.socketToRoom c with
      | none => rw [handleMessage, hm] at he; cases he
      | some r =>
        rw [handleMessage, hm] at he
        exact emitToRoomExcept_ne _ _ _ _ e he
  · intro x y pl txt hxy hx s hs
    have hyx : y ≠ x := Ne.symm hxy
    rw [hs, run_pair_eq x y hxy hx]
    refine ⟨?_, ?_, ?_, ?_⟩ <;>
      simp [handleSignal, handleMessage, mapGet, emitToRoomExcept,
        membersOf, hxy, hyx]

/-- Witness for C7: the no-op case at the initial state, the
never-back-to-sender case at a two-member room, and the paired relay for
the concrete pair "a", "b". -/
theorem C7_relay_contract_witness :
    (handleSignal init "a" "p" = (init, []) ∧
      handleMessage init "a" "t" = (init, [])) ∧
    ("b" : Id) ≠ "a" ∧
    (handleSignal (run [Ev.connect "a", Ev.connect "b", Ev.joinQueue "a",
        Ev.joinQueue "b"]) "b" "p"
      = (run [Ev.connect "a", Ev.connect "b", Ev.joinQueue "a",
          Ev.joinQueue "b"], [("a", OutMsg.signalOut "b" "p")])) :=
  ⟨C7_relay_contract.1 init "a" "p" "t" rfl,
   (C7_relay_contract.2.2.1 ⟨[], [("a", "r")], [("r", "a"), ("r", "b")], []⟩
      "a" "p" "t" ("b", OutMsg.signalOut "a" "p")).1 (by decide),
   (C7_relay_contract.2.2.2 "a" "b" "p" "t" (by decide) (by decide) _
      rfl).1⟩

/-- Counterexample to C8 as stated: on `leave_room` the leaving connection
"a" itself also receives `partner_disconnected` (the room broadcast
includes the leaver, which is still in the room). -/
theorem C8_partner_disconnected_reaches_leaver :
    (("a" : Id), OutMsg.partnerDisconnected) ∈
      (runAcc [Ev.connect "a", Ev.connect "b", Ev.joinQueue "a",
        Ev.joinQueue "b", Ev.leaveRoom "a"]).2 := by
  decide

/-- C8 (amended) — `partner_disconnected` targeting: when `x` paired with
`y` disconnects, the event is delivered exactly to the remaining member `y`;
when `x` leaves via `leave_room` it is delivered exactly to the two room
members `y` and `x` (including the leaver); in both cases no connection
outside the dissolved session receives anything. -/
theorem C8_partner_disconnected_targeting (x y : Id) (hxy : x ≠ y)
    (hx : x ≠ "") :
    (step (run [Ev.connect x, Ev.connect y, Ev.joinQueue x, Ev.joinQueue y])
        (Ev.disconnect x)).2 = [(y, OutMsg.partnerDisconnected)] ∧
    (step (run [Ev.connect x, Ev.connect y, Ev.joinQueue x, Ev.joinQueue y])
        (Ev.leaveRoom x)).2 =
      [(y, OutMsg.partnerDisconnected), (x, OutMsg.partnerDisconnected)] := by
  have hyx : y ≠ x := Ne.symm hxy
  rw [run_pair_eq x y hxy hx]
  constructor <;>
    simp [step, handleDisconnect, handleLeaveRoom, handleUserLeave, mapGet,
      mapDelete, emitToRoom, membersOf, hxy, hyx]

/-- Witness for the amended C8 at the concrete pair "a", "b". -/
theorem C8_partner_disconnected_targeting_witness :
    (step (run [Ev.connect "a", Ev.connect "b", Ev.joinQueue "a",
        Ev.joinQueue "b"]) (Ev.disconnect "a")).2 =
      [("b", OutMsg.partnerDisconnected)] ∧
    (step (run [Ev.connect "a", Ev.connect "b", Ev.joinQueue "a",
        Ev.joinQueue "b"]) (Ev.leaveRoom "a")).2 =
      [("b", OutMsg.partnerDisconnected), ("a", OutMsg.partnerDisconnected)] :=
  C8_partner_disconnected_targeting "a" "b" (by decide) (by decide)

/-- Counterexample to C10 as stated: swapping the two member identifiers
changes the derived session identifier. -/
theorem C10_roomName_not_commutative :
    roomName "a" "b" ≠ roomName "b" "a" := by
  decide

/-- C10 (amended) — the session-identifier derivation is deterministic but
order-dependent: for distinct member identifiers of equal length (socket.io
ids all share one length) the two role orders always yield different
identifiers. -/
theorem C10_roomName_order_dependent (a b : Id)
    (hlen : a.length = b.length) (hne : a ≠ b) :
    roomName a b ≠ roomName b a := by
  intro h
  apply hne
  have hdata : "room_".data ++ (a.data ++ ("_".data ++ b.data)) =
      "room_".data ++ (b.data ++ ("_".data ++ a.data)) := by
    have h' := congrArg String.data h
    simpa [roomName, String.data_append, List.append_assoc] using h'
  have h2 : a.data ++ ("_".data ++ b.data) = b.data ++ ("_".data ++ a.data) :=
    List.append_cancel_left hdata
  have hdl : a.data.length = b.data.length := hlen
  exact String.ext (List.append_inj h2 hdl).1

/-- Witness for the amended C10 at equal-length distinct ids "aa", "ab". -/
theorem C10_roomName_order_dependent_witness :
    roomName "aa" "ab" ≠ roomName "ab" "aa" :=
  C10_roomName_order_dependent "aa" "ab" (by decide) (by decide)

end ConnectOnline
